import Mathlib

/-!
# Verification of the helpdesk in-memory coordination core

Shallow embedding of the four in-memory subsystems of the helpdesk backend:

* `ChatSessionManager` (`src/agent/chat_manager.py`) — session cache, token
  ledger, batched persistence (`add_message_to_cache`, `save_chat_to_db`,
  `save_session_metrics`, `end_session`);
* `InMemoryContextOffloader` (`src/agent/context_offloader.py`) — chunking
  (`_chunk_data`), `store`, `get_chunks`, `get_retrieval_stats`,
  `get_metadata`;
* `AdaptiveWindowedCheckpointer` (`src/agent/checkpointer.py`) — the adaptive
  message-window walk inside `get_tuple`;
* `InMemoryRateLimiter` (`src/api/rate_limiter.py`) — `check_rate_limit` and
  its helpers.

Conventions of the embedding:

* Python dicts become association lists over `String` keys (`alookup`,
  `aset`); `defaultdict(list)` reads become `(alookup m k).getD []`.
* Wall-clock time (`datetime.utcnow()`, `time.time()`) is injected as an
  explicit `now : Int` argument, matching the spec's injected `Clock.Now()`.
* External I/O (`run_query`) is modelled by explicit success flags plus a log
  of the durable writes a call performs (`DbWrite`); a Python exception that
  propagates is an explicit `raised`-style result, and the ZeroDivisionError
  that Python `/` raises on a zero denominator is an explicit error branch.
* Fresh identifiers (`uuid`) are injected as arguments.
* Float-valued metric fields of the Python code (latency averages, cost
  estimates) are outside every claim and are not part of the model; the
  integer/row/token bookkeeping the claims speak about is embedded in full.
-/

/-! ## Association-list maps (Python dict embedding) -/

def alookup {β : Type} (m : List (String × β)) (k : String) : Option β :=
  match m with
  | [] => none
  | (k1, v) :: rest => if k1 = k then some v else alookup rest k

def aset {β : Type} (m : List (String × β)) (k : String) (v : β) :
    List (String × β) :=
  match m with
  | [] => [(k, v)]
  | (k1, v1) :: rest => if k1 = k then (k, v) :: rest else (k1, v1) :: aset rest k v

theorem alookup_aset_self {β : Type} (m : List (String × β)) (k : String) (v : β) :
    alookup (aset m k v) k = some v := by
  induction m with
  | nil => simp [aset, alookup]
  | cons hd tl ih =>
    obtain ⟨k1, v1⟩ := hd
    by_cases h : k1 = k
    · simp [aset, alookup, h]
    · simp [aset, alookup, h, ih]

theorem alookup_aset_ne {β : Type} (m : List (String × β)) (k k2 : String) (v : β)
    (h : k ≠ k2) : alookup (aset m k v) k2 = alookup m k2 := by
  induction m with
  | nil => simp [aset, alookup, h]
  | cons hd tl ih =>
    obtain ⟨k1, v1⟩ := hd
    by_cases h1 : k1 = k
    · subst h1
      simp [aset, alookup, h]
    · simp [aset, alookup, h1, ih]

/-! ## Context offloader: chunking (`InMemoryContextOffloader._chunk_data`)

Rows are kept abstract; `sz : α → Nat` stands for `len(json.dumps(row))`,
the serialized byte size the Python code measures.  The accumulator layout
(`chunks`, `current_chunk`, `current_size`) mirrors the Python loop exactly.
-/

def chunkGo {α : Type} (sz : α → Nat) (csize : Nat) :
    List α → List (List α) → List α → Nat → List (List α)
  | [], chunks, cur, _ => if cur.isEmpty then chunks else chunks ++ [cur]
  | r :: rest, chunks, cur, curSize =>
    if csize < sz r then
      chunkGo sz csize rest
        ((if cur.isEmpty then chunks else chunks ++ [cur]) ++ [[r]]) [] 0
    else if csize < curSize + sz r ∧ ¬ cur.isEmpty then
      chunkGo sz csize rest (chunks ++ [cur]) [r] (sz r)
    else
      chunkGo sz csize rest chunks (cur ++ [r]) (curSize + sz r)

def chunk_data {α : Type} (sz : α → Nat) (csize : Nat) (rows : List α) :
    List (List α) :=
  chunkGo sz csize rows [] [] 0

theorem chunkGo_join {α : Type} (sz : α → Nat) (csize : Nat) (rows : List α) :
    ∀ (chunks : List (List α)) (cur : List α) (curSize : Nat),
      (chunkGo sz csize rows chunks cur curSize).flatten =
        chunks.flatten ++ cur ++ rows := by
  induction rows with
  | nil =>
    intro chunks cur curSize
    by_cases h : cur.isEmpty
    · have : cur = [] := List.isEmpty_iff.mp h
      simp [chunkGo, h, this]
    · simp [chunkGo, h]
  | cons r rest ih =>
    intro chunks cur curSize
    by_cases h1 : csize < sz r
    · by_cases h2 : cur.isEmpty
      · have hc : cur = [] := List.isEmpty_iff.mp h2
        simp [chunkGo, h1, h2, ih, hc]
      · simp [chunkGo, h1, h2, ih]
    · by_cases h2 : csize < curSize + sz r ∧ ¬ cur.isEmpty
      · rw [chunkGo, if_neg h1, if_pos h2, ih]
        simp
      · rw [chunkGo, if_neg h1, if_neg h2, ih]
        simp

/-- Size bound invariant carried through the chunking loop. -/
def ChunkOk {α : Type} (sz : α → Nat) (csize : Nat) (c : List α) : Prop :=
  (c.map sz).sum ≤ csize ∨ ∃ r, c = [r] ∧ csize < sz r

theorem chunkGo_sizes {α : Type} (sz : α → Nat) (csize : Nat) (rows : List α) :
    ∀ (chunks : List (List α)) (cur : List α) (curSize : Nat),
      (∀ c ∈ chunks, ChunkOk sz csize c) →
      (cur.map sz).sum = curSize → curSize ≤ csize →
      ∀ c ∈ chunkGo sz csize rows chunks cur curSize, ChunkOk sz csize c := by
  induction rows with
  | nil =>
    intro chunks cur curSize hchunks hsum hle c hc
    by_cases h : cur.isEmpty
    · rw [chunkGo, if_pos h] at hc
      exact hchunks c hc
    · rw [chunkGo, if_neg h] at hc
      rcases List.mem_append.mp hc with h1 | h1
      · exact hchunks c h1
      · have : c = cur := by simpa using h1
        subst this
        exact Or.inl (hsum ▸ hle)
  | cons r rest ih =>
    intro chunks cur curSize hchunks hsum hle c hc
    by_cases h1 : csize < sz r
    · rw [chunkGo, if_pos h1] at hc
      refine ih _ [] 0 ?_ (by simp) (Nat.zero_le _) c hc
      intro c1 hc1
      rcases List.mem_append.mp hc1 with h2 | h2
      · by_cases h3 : cur.isEmpty
        · rw [if_pos h3] at h2
          exact hchunks c1 h2
        · rw [if_neg h3] at h2
          rcases List.mem_append.mp h2 with h4 | h4
          · exact hchunks c1 h4
          · have : c1 = cur := by simpa using h4
            subst this
            exact Or.inl (hsum ▸ hle)
      · have : c1 = [r] := by simpa using h2
        subst this
        exact Or.inr ⟨r, rfl, h1⟩
    · rw [chunkGo, if_neg h1]  at hc
      by_cases h2 : csize < curSize + sz r ∧ ¬ cur.isEmpty
      · rw [if_pos h2] at hc
        refine ih _ [r] (sz r) ?_ (by simp) (Nat.le_of_not_lt h1) c hc
        intro c1 hc1
        rcases List.mem_append.mp hc1 with h3 | h3
        · exact hchunks c1 h3
        · have : c1 = cur := by simpa using h3
          subst this
          exact Or.inl (hsum ▸ hle)
      · rw [if_neg h2] at hc
        rcases Decidable.not_and_iff_or_not.mp h2 with h3 | h3
        · refine ih _ (cur ++ [r]) (curSize + sz r) hchunks (by simp [hsum])
            (Nat.le_of_not_lt h3) c hc
        · have hcur : cur = [] := List.isEmpty_iff.mp (Decidable.not_not.mp h3)
          subst hcur
          simp only [hsum.symm, List.map_nil, List.sum_nil, Nat.zero_add] at hc ⊢
          refine ih _ [r] (sz r) hchunks (by simp) (Nat.le_of_not_lt h1) c ?_
          simpa using hc

/-- C4: concatenating the chunks produced by `_chunk_data` in order yields
exactly the original row sequence, every chunk's summed serialized size is at
most `chunk_context_size` unless it is a single row whose own size exceeds
`chunk_context_size`, and an oversized row is always its own chunk. -/
theorem chunk_coverage {α : Type} (sz : α → Nat) (csize : Nat) (rows : List α) :
    (chunk_data sz csize rows).flatten = rows ∧
    (∀ c ∈ chunk_data sz csize rows,
      (c.map sz).sum ≤ csize ∨ ∃ r, c = [r] ∧ csize < sz r) ∧
    (∀ c ∈ chunk_data sz csize rows, ∀ r ∈ c, csize < sz r → c = [r]) := by
  have hsizes : ∀ c ∈ chunk_data sz csize rows, ChunkOk sz csize c :=
    chunkGo_sizes sz csize rows [] [] 0 (by simp) (by simp) (Nat.zero_le _)
  refine ⟨?_, hsizes, ?_⟩
  · have := chunkGo_join sz csize rows [] [] 0
    simpa [chunk_data] using this
  · intro c hc r hr hlt
    rcases hsizes c hc with hsum | ⟨r1, hceq, _⟩
    · exfalso
      have hmem : sz r ∈ c.map sz := List.mem_map_of_mem sz hr
      have : sz r ≤ (c.map sz).sum := List.single_le_sum (fun _ _ => Nat.zero_le _) _ hmem
      omega
    · subst hceq
      have : r = r1 := by simpa using hr
      simp [this]

/-- Witness for C4 at a concrete input: rows of sizes `[3, 4, 5, 12]` with
`chunk_context_size = 10` chunk to `[[3, 4], [5], [12]]`. -/
theorem chunk_coverage_witness :
    (chunk_data (fun n : Nat => n) 10 [3, 4, 5, 12]).flatten = [3, 4, 5, 12] ∧
    ((([12] : List Nat).map (fun n : Nat => n)).sum ≤ 10 ∨
      ∃ r, ([12] : List Nat) = [r] ∧ 10 < (fun n : Nat => n) r) :=
  ⟨(chunk_coverage (fun n => n) 10 [3, 4, 5, 12]).1,
   (chunk_coverage (fun n => n) 10 [3, 4, 5, 12]).2.1 [12] (by decide)⟩

/-! ## Session cache & token ledger (`ChatSessionManager`)

`active_chats`, `unsaved_messages` and `metrics_saved` are the three dicts of
`ChatSessionManager.__init__`; each cached chat's dict becomes `ChatData`.
Timestamps are injected (`now : Int`).  External `run_query` calls are
modelled by success flags (`insert_ok`, `update_ok`, `metrics_ok`); a call
whose flag is `false` raises, and each call that succeeds is recorded as a
`DbWrite` so theorems can count the durable writes an operation performs. -/

structure Message where
  role : String
  content : String
  tokens : Nat
  session_id : String
  created_at : Int
deriving Repr, DecidableEq

structure TurnRecord where
  role : String
  tokens : Nat
  cumulative_total : Nat
  timestamp : Int
deriving Repr, DecidableEq

structure CumulativeTokens where
  total : Nat
  input : Nat
  output : Nat
  by_turn : List TurnRecord
deriving Repr, DecidableEq

structure ChatData where
  messages : List Message
  cumulative_tokens : CumulativeTokens
  session_id : String
  session_start_time : Int
  last_activity : Int
  last_save : Int
  user_id : String
  message_count : Nat
  turn_count : Nat
  tool_execution_count : Nat
  error_count : Nat
deriving Repr, DecidableEq

structure ManagerState where
  active_chats : List (String × ChatData)
  unsaved_messages : List (String × List Message)
  metrics_saved : List (String × Bool)
deriving Repr, DecidableEq

/-- The cache entry built by `create_new_chat` (lines 78-93): empty message
log, zeroed token ledger and counters. -/
def initChatData (session_id user_id : String) (now : Int) : ChatData :=
  { messages := []
    cumulative_tokens := { total := 0, input := 0, output := 0, by_turn := [] }
    session_id := session_id
    session_start_time := now
    last_activity := now
    last_save := now
    user_id := user_id
    message_count := 0
    turn_count := 0
    tool_execution_count := 0
    error_count := 0 }

/-- In-memory effect of `create_new_chat` after its INSERT succeeds: cache the
fresh `ChatData` and mark metrics as not saved. -/
def cache_new_chat (mgr : ManagerState) (chat_id session_id user_id : String)
    (now : Int) : ManagerState :=
  { mgr with
    active_chats := aset mgr.active_chats chat_id (initChatData session_id user_id now)
    metrics_saved := aset mgr.metrics_saved chat_id false }

/-- The `message` dict built at lines 216-222. -/
def appendedMessage (chat_data : ChatData) (role content : String)
    (tokens : Nat) (now : Int) : Message :=
  { role := role, content := content, tokens := tokens
    session_id := chat_data.session_id, created_at := now }

/-- The mutation of the cached chat dict at lines 224-246: append the
message, update the token ledger per role, bump the counters. -/
def appendedChatData (chat_data : ChatData) (role content : String)
    (tokens : Nat) (now : Int) : ChatData :=
  let ct := chat_data.cumulative_tokens
  { chat_data with
    messages := chat_data.messages ++ [appendedMessage chat_data role content tokens now]
    cumulative_tokens :=
      { total := ct.total + tokens
        input := if role = "user" then ct.input + tokens else ct.input
        output := if role = "assistant" then ct.output + tokens else ct.output
        by_turn := ct.by_turn ++
          [{ role := role, tokens := tokens
             cumulative_total := ct.total + tokens, timestamp := now }] }
    message_count := chat_data.message_count + 1
    turn_count := if role = "user" then chat_data.turn_count + 1
      else chat_data.turn_count
    last_activity := now }

/-- `ChatSessionManager.add_message_to_cache` (lines 207-252).  An uncached
`chat_id` logs a warning and returns with no state change; otherwise the
message is appended to the log and the unsaved queue and the token ledger is
updated. -/
def add_message_to_cache (mgr : ManagerState) (chat_id role content : String)
    (tokens : Nat) (now : Int) : ManagerState :=
  match alookup mgr.active_chats chat_id with
  | none => mgr
  | some chat_data =>
    { mgr with
      active_chats := aset mgr.active_chats chat_id
        (appendedChatData chat_data role content tokens now)
      unsaved_messages := aset mgr.unsaved_messages chat_id
        ((alookup mgr.unsaved_messages chat_id).getD [] ++
          [appendedMessage chat_data role content tokens now]) }

/-- Durable writes issued through the persistence contract (`run_query` /
the `chat_metrics` upsert), recorded only when the corresponding external
call succeeds. -/
inductive DbWrite where
  | insertMessages (chat_id : String) (msgs : List Message)
  | updateChatTokens (chat_id : String) (total : Nat)
  | insertMetrics (chat_id : String) (session_id : String)
deriving Repr, DecidableEq

/-- Result of `save_chat_to_db`: the returned count, or a propagated
exception from `run_query`. -/
inductive FlushResult where
  | count (n : Nat)
  | raised
deriving Repr, DecidableEq

/-- `ChatSessionManager.save_chat_to_db` (lines 300-366).  Mirrors the source
branch for branch: unknown chat → 0; empty unsaved queue → 0; `force =
false` within the auto-save interval → 0; otherwise one batched INSERT of
the unsaved messages, then the totals UPDATE, and only after both succeed is
the unsaved queue cleared and `last_save` advanced.  A failing `run_query`
raises, leaving all cache state untouched. -/
def save_chat_to_db (auto_save_interval : Int) (mgr : ManagerState)
    (chat_id : String) (force : Bool) (now : Int) (insert_ok update_ok : Bool) :
    FlushResult × ManagerState × List DbWrite :=
  match alookup mgr.active_chats chat_id with
  | none => (.count 0, mgr, [])
  | some chat_data =>
    let unsaved := (alookup mgr.unsaved_messages chat_id).getD []
    if unsaved.isEmpty then (.count 0, mgr, [])
    else if ¬ force ∧ now - chat_data.last_save < auto_save_interval then
      (.count 0, mgr, [])
    else if ¬ insert_ok then (.raised, mgr, [])
    else if ¬ update_ok then
      (.raised, mgr, [DbWrite.insertMessages chat_id unsaved])
    else
      (.count unsaved.length,
       { mgr with
         active_chats := aset mgr.active_chats chat_id
           { chat_data with last_save := now }
         unsaved_messages := aset mgr.unsaved_messages chat_id [] },
       [DbWrite.insertMessages chat_id unsaved,
        DbWrite.updateChatTokens chat_id chat_data.cumulative_tokens.total])

/-- `ChatSessionManager.save_session_metrics` (lines 368-479).  Unknown chat
or already-finalized metrics → no-op; otherwise one keyed upsert into
`chat_metrics`; on success the `metrics_saved` flag is set, on failure the
exception is caught and swallowed (flag left unset). -/
def save_session_metrics (mgr : ManagerState) (chat_id : String)
    (metrics_ok : Bool) : ManagerState × List DbWrite :=
  match alookup mgr.active_chats chat_id with
  | none => (mgr, [])
  | some chat_data =>
    if (alookup mgr.metrics_saved chat_id).getD false then (mgr, [])
    else if metrics_ok then
      ({ mgr with metrics_saved := aset mgr.metrics_saved chat_id true },
       [DbWrite.insertMetrics chat_id chat_data.session_id])
    else (mgr, [])

/-- `ChatSessionManager.end_session` (lines 488-500): forced flush followed by
`save_session_metrics`.  The returned `Bool` is `true` when the forced flush
raised (the exception propagates out of `end_session` before the metrics
step runs). -/
def end_session (auto_save_interval : Int) (mgr : ManagerState)
    (chat_id : String) (now : Int) (insert_ok update_ok metrics_ok : Bool) :
    Bool × ManagerState × List DbWrite :=
  match alookup mgr.active_chats chat_id with
  | none => (false, mgr, [])
  | some _ =>
    match save_chat_to_db auto_save_interval mgr chat_id true now insert_ok update_ok with
    | (.raised, mgr1, w1) => (true, mgr1, w1)
    | (.count _, mgr1, w1) =>
      let (mgr2, w2) := save_session_metrics mgr1 chat_id metrics_ok
      (false, mgr2, w1 ++ w2)

/-! ## Context offload store (`InMemoryContextOffloader`)

Sessions are keyed by the injected `session_id` (`uuid` in the source).  The
`summary` dict of `_calculate_summary` is float-valued aggregate statistics
no claim touches and is not carried in the model.  Python's `/` raises
`ZeroDivisionError` on a zero denominator; the progress-percentage divisions
of `get_chunks`, `get_retrieval_stats` and `get_metadata` therefore have an
explicit `zeroDivision` result branch guarding `total_chunks = 0`. -/

structure ChunkTracking where
  retrieved : Bool
  retrieval_count : Nat
  first_retrieval : Option Int
  last_retrieval : Option Int
  row_count : Nat
deriving Repr, DecidableEq

def defaultTracking : ChunkTracking :=
  { retrieved := false, retrieval_count := 0, first_retrieval := none
    last_retrieval := none, row_count := 0 }

structure RetrievalEvent where
  timestamp : Int
  chunk_indices : List Int
  rows_retrieved : Nat
deriving Repr, DecidableEq

structure OffloadSession (α : Type) where
  chunks : List (List α)
  total_chunks : Nat
  total_rows : Nat
  query : String
  year_filter : Option Int
  created_at : Int
  chunk_tracking : List ChunkTracking
  retrieval_history : List RetrievalEvent
deriving DecidableEq

def OffloadState (α : Type) : Type := List (String × OffloadSession α)

instance {α : Type} [DecidableEq α] : DecidableEq (OffloadState α) := by
  unfold OffloadState
  infer_instance

/-- `InMemoryContextOffloader.store` (lines 96-147): chunk the rows, build a
ledger entry per chunk marked unretrieved, register the session. -/
def store {α : Type} (sz : α → Nat) (csize : Nat) (st : OffloadState α)
    (session_id : String) (rows : List α) (query : String)
    (year_filter : Option Int) (now : Int) : OffloadState α :=
  let chunks := chunk_data sz csize rows
  let tracking := chunks.map (fun c =>
    { retrieved := false, retrieval_count := 0, first_retrieval := none
      last_retrieval := none, row_count := c.length })
  aset st session_id
    { chunks := chunks, total_chunks := chunks.length, total_rows := rows.length
      query := query, year_filter := year_filter, created_at := now
      chunk_tracking := tracking, retrieval_history := [] }

/-- The per-index tracking mutation of the `get_chunks` retrieval loop
(lines 185-195): mark retrieved, bump the count, stamp first/last times. -/
def markRetrieved (now : Int) : List ChunkTracking → Nat → List ChunkTracking
  | [], _ => []
  | t :: ts, 0 =>
    { t with
      retrieved := true
      retrieval_count := t.retrieval_count + 1
      first_retrieval := if t.first_retrieval = none then some now else t.first_retrieval
      last_retrieval := some now } :: ts
  | t :: ts, j + 1 => t :: markRetrieved now ts j

inductive GetChunksResult (α : Type) where
  | notFound (session_id : String)
  | invalidIndices (invalid : List Int) (total_chunks : Nat)
  | zeroDivision
  | success (data : List α) (remaining_indices : List Nat)
      (chunks_retrieved : Nat) (total_chunks : Nat) (percentage : Rat)
deriving DecidableEq

/-- `InMemoryContextOffloader.get_chunks` (lines 149-249).  Unknown session →
error, untouched state; any out-of-range index → error listing exactly the
offending indices, untouched state; otherwise the requested chunks are
concatenated in request order, each requested index's ledger entry is bumped
once per occurrence, the retrieval history gains one event, and the progress
percentage is computed — which in Python divides by `total_chunks` and
raises `ZeroDivisionError` when the session has zero chunks (the tracking
and history mutations before the division persist). -/
def get_chunks {α : Type} (st : OffloadState α) (session_id : String)
    (chunk_indices : List Int) (now : Int) : GetChunksResult α × OffloadState α :=
  match alookup st session_id with
  | none => (.notFound session_id, st)
  | some s =>
    let total := s.total_chunks
    let invalid := chunk_indices.filter (fun i => i < 0 ∨ (total : Int) ≤ i)
    if ¬ invalid.isEmpty then (.invalidIndices invalid total, st)
    else
      let data := (chunk_indices.map (fun i => s.chunks.getD i.toNat [])).flatten
      let tracking := chunk_indices.foldl (fun tr i => markRetrieved now tr i.toNat)
        s.chunk_tracking
      let s1 := { s with
        chunk_tracking := tracking
        retrieval_history := s.retrieval_history ++
          [{ timestamp := now, chunk_indices := chunk_indices, rows_retrieved := data.length }] }
      let st1 := aset st session_id s1
      let remaining := (List.range total).filter
        (fun i => ¬ (tracking.getD i defaultTracking).retrieved)
      let retrieved_count := (tracking.filter (·.retrieved)).length
      if total = 0 then (.zeroDivision, st1)
      else
        (.success data remaining retrieved_count total
          ((retrieved_count : Rat) * 100 / (total : Rat)), st1)

inductive StatsResult where
  | missing
  | zeroDivision
  | stats (total_chunks chunks_retrieved chunks_never_retrieved
      chunks_multi : Nat) (progress : Rat)
      (never_indices multi_indices : List Nat)
deriving DecidableEq

/-- `InMemoryContextOffloader.get_retrieval_stats` (lines 251-281): `None`
for an unknown session; otherwise the ledger dump, whose
`progress_percentage` division raises `ZeroDivisionError` when
`total_chunks = 0`. -/
def get_retrieval_stats {α : Type} (st : OffloadState α) (session_id : String) :
    StatsResult :=
  match alookup st session_id with
  | none => .missing
  | some s =>
    let total := s.total_chunks
    let retrieved := (s.chunk_tracking.filter (·.retrieved)).length
    let never := (List.range total).filter
      (fun i => ¬ (s.chunk_tracking.getD i defaultTracking).retrieved)
    let multi := (List.range total).filter
      (fun i => 1 < (s.chunk_tracking.getD i defaultTracking).retrieval_count)
    if total = 0 then .zeroDivision
    else .stats total retrieved never.length multi.length
      ((retrieved : Rat) * 100 / (total : Rat)) never multi

inductive MetadataResult where
  | missing
  | zeroDivision
  | metadata (total_chunks total_rows : Nat) (query : String)
      (chunks_retrieved : Nat) (percentage : Rat)
deriving DecidableEq

/-- `InMemoryContextOffloader.get_metadata` (lines 290-315): `None` for an
unknown session; otherwise metadata plus retrieval progress, whose
percentage division raises `ZeroDivisionError` when `total_chunks = 0`. -/
def get_metadata {α : Type} (st : OffloadState α) (session_id : String) :
    MetadataResult :=
  match alookup st session_id with
  | none => .missing
  | some s =>
    let retrieved := (s.chunk_tracking.filter (·.retrieved)).length
    if s.total_chunks = 0 then .zeroDivision
    else .metadata s.total_chunks s.total_rows s.query retrieved
      ((retrieved : Rat) * 100 / (s.total_chunks : Rat))

/-! ## Adaptive message window (`AdaptiveWindowedCheckpointer.get_tuple`)

The windowing walk of lines 141-158, applied to the `messages` list of the
checkpoint state.  `_estimate_tokens` is `len(str(content)) // 4`. -/

structure ChkMsg where
  content : String
deriving Repr, DecidableEq

def estimate_tokens (m : ChkMsg) : Nat := m.content.length / 4

/-- The `for msg in reversed(messages)` loop: `acc` is `windowed_messages`
(prepend = `insert(0, msg)`), `total` is `total_tokens`; the walk stops when
the window is full, or when the budget would be exceeded while at least
`min_window_size` messages are already kept. -/
def adaptiveWindowGo (window_size max_window_tokens min_window_size : Nat) :
    List ChkMsg → List ChkMsg → Nat → List ChkMsg
  | [], acc, _ => acc
  | m :: rest, acc, total =>
    if window_size ≤ acc.length then acc
    else if max_window_tokens < total + estimate_tokens m ∧
        min_window_size ≤ acc.length then acc
    else adaptiveWindowGo window_size max_window_tokens min_window_size rest
      (m :: acc) (total + estimate_tokens m)

def adaptive_window (window_size max_window_tokens min_window_size : Nat)
    (messages : List ChkMsg) : List ChkMsg :=
  adaptiveWindowGo window_size max_window_tokens min_window_size
    messages.reverse [] 0

/-! ## Sliding-window rate limiter (`InMemoryRateLimiter`)

`requests` is the nested `{user_id: {endpoint: [(timestamp, count)]}}` dict,
`limits` the per-endpoint `(limit, window_seconds)` configuration built in
`__init__` (it always contains a `"default"` entry, used as fallback for
unconfigured endpoints). -/

structure RateLimiterState where
  requests : List (String × List (String × List (Int × Nat)))
  limits : List (String × (Nat × Nat))
deriving DecidableEq

/-- The limit configuration of `InMemoryRateLimiter.__init__`. -/
def init_limits : List (String × (Nat × Nat)) :=
  [("default", (100, 60)), ("/api/chat", (20, 60)),
   ("/api/auth/login", (5, 300)), ("/api/query", (30, 60))]

/-- `self.limits.get(endpoint, self.limits["default"])`. -/
def get_limit (limits : List (String × (Nat × Nat))) (endpoint : String) :
    Nat × Nat :=
  (alookup limits endpoint).getD ((alookup limits "default").getD (100, 60))

/-- `InMemoryRateLimiter._cleanup_old_requests` (lines 35-44): drop entries
with `ts <= now - window_seconds` for the given key, if present. -/
def cleanup_old_requests (st : RateLimiterState) (user_id endpoint : String)
    (window_seconds : Nat) (now : Int) : RateLimiterState :=
  match alookup st.requests user_id with
  | none => st
  | some umap =>
    match alookup umap endpoint with
    | none => st
    | some entries =>
      { st with requests := aset st.requests user_id (aset umap endpoint
          (entries.filter (fun e => now - (window_seconds : Int) < e.1))) }

/-- `InMemoryRateLimiter._get_request_count` (lines 46-51). -/
def get_request_count (st : RateLimiterState) (user_id endpoint : String) : Nat :=
  match alookup st.requests user_id with
  | none => 0
  | some umap =>
    match alookup umap endpoint with
    | none => 0
    | some entries => (entries.map (fun e => e.2)).sum

def append_request (st : RateLimiterState) (user_id endpoint : String)
    (now : Int) : RateLimiterState :=
  let umap := (alookup st.requests user_id).getD []
  let entries := (alookup umap endpoint).getD []
  { st with requests := aset st.requests user_id (aset umap endpoint (entries ++ [(now, 1)])) }

structure RateLimitInfo where
  allowed : Bool
  lim : Nat
  remaining : Int
  reset : Int
  retry_after : Int
deriving Repr, DecidableEq

/-- `InMemoryRateLimiter.check_rate_limit` (lines 53-125): look up the
endpoint's `(limit, window)`, lazily evict aged entries, sum the remaining
weights, and compare with the limit.  Over limit → `allowed = false` with
`retry_after = int(window - (now - oldest)) + 1`; otherwise append a fresh
`(now, 1)` entry when `increment` is set. -/
def check_rate_limit (st : RateLimiterState) (user_id endpoint : String)
    (increment : Bool) (now : Int) :
    (Bool × RateLimitInfo) × RateLimiterState :=
  let cfg := get_limit st.limits endpoint
  let limit_count := cfg.1
  let window_seconds := cfg.2
  let st1 := cleanup_old_requests st user_id endpoint window_seconds now
  let current_count := get_request_count st1 user_id endpoint
  if limit_count ≤ current_count then
    let entries := (alookup ((alookup st1.requests user_id).getD []) endpoint).getD []
    let retry_after : Int :=
      match entries with
      | [] => (window_seconds : Int)
      | e :: _ => (window_seconds : Int) - (now - e.1) + 1
    ((false,
      { allowed := false
        lim := limit_count
        remaining := 0
        reset := now + retry_after
        retry_after := retry_after }), st1)
  else
    let st2 := if increment then append_request st1 user_id endpoint now else st1
    ((true,
      { allowed := true
        lim := limit_count
        remaining := (limit_count : Int) - (current_count : Int) -
          (if increment then 1 else 0)
        reset := now + (window_seconds : Int)
        retry_after := 0 }), st2)

/-! ## Remaining embedding pieces for the claims -/

inductive ChatError where
  | unknownConversation
deriving Repr, DecidableEq

/-- The spec's contract for `AppendTurn`, written from the spec's words for
comparison with the source's `add_message_to_cache`: "Fails with
`UnknownConversationError` if `chat_id` is not cached"; otherwise append. -/
def append_turn_spec (mgr : ManagerState) (chat_id role content : String)
    (tokens : Nat) (now : Int) : Except ChatError ManagerState :=
  match alookup mgr.active_chats chat_id with
  | none => .error .unknownConversation
  | some _ => .ok (add_message_to_cache mgr chat_id role content tokens now)

/-- One `AppendTurn` call's arguments. -/
structure AppendCall where
  role : String
  content : String
  tokens : Nat
  now : Int
deriving Repr, DecidableEq

/-- A sequence of `add_message_to_cache` calls on one conversation. -/
def applyCalls (mgr : ManagerState) (chat_id : String)
    (calls : List AppendCall) : ManagerState :=
  calls.foldl
    (fun m c => add_message_to_cache m chat_id c.role c.content c.tokens c.now) mgr

def sumTokens (calls : List AppendCall) : Nat :=
  (calls.map (fun c => c.tokens)).sum

def sumRoleTokens (r : String) (calls : List AppendCall) : Nat :=
  ((calls.filter (fun c => c.role = r)).map (fun c => c.tokens)).sum

/-- First half of `save_chat_to_db` (lines 309-339), up to the first
`await run_query`: decide whether the flush proceeds and, if so, snapshot the
batch serialized into the INSERT statement (`values` is built from the
unsaved list *before* the awaits).  The local variable `unsaved` of the
Python coroutine aliases the live `self.unsaved_messages[chat_id]` list, so
mutations during the awaits are visible to the second half. -/
def save_chat_phase1 (auto_save_interval : Int) (mgr : ManagerState)
    (chat_id : String) (force : Bool) (now : Int) : Option (List Message) :=
  match alookup mgr.active_chats chat_id with
  | none => none
  | some chat_data =>
    let unsaved := (alookup mgr.unsaved_messages chat_id).getD []
    if unsaved.isEmpty then none
    else if ¬ force ∧ now - chat_data.last_save < auto_save_interval then none
    else some unsaved

/-- Second half of `save_chat_to_db` (lines 352-362), after both awaits
succeed: `saved_count = len(unsaved)` reads the *live* aliased list (which
may have grown during the awaits), then `self.unsaved_messages[chat_id]`
is rebound to a fresh empty list and `last_save` is stamped. -/
def save_chat_phase2 (mgr : ManagerState) (chat_id : String) (now : Int) :
    Nat × ManagerState :=
  let live := (alookup mgr.unsaved_messages chat_id).getD []
  (live.length,
   { mgr with
     unsaved_messages := aset mgr.unsaved_messages chat_id []
     active_chats :=
       match alookup mgr.active_chats chat_id with
       | none => mgr.active_chats
       | some cd => aset mgr.active_chats chat_id { cd with last_save := now } })

def isMetricsWrite : DbWrite → Bool
  | .insertMetrics _ _ => true
  | _ => false

def countMetricsWrites (w : List DbWrite) : Nat :=
  (w.filter isMetricsWrite).length

/-! ## Concrete fixtures shared by witnesses -/

def cdEx : ChatData := initChatData "s1" "u1" 0

def msgEx : Message :=
  { role := "user", content := "hello", tokens := 5, session_id := "s1"
    created_at := 1 }

/-- A manager state with one cached chat `c1` holding one unsaved message. -/
def mgrEx : ManagerState :=
  { active_chats := [("c1",
      { cdEx with
        messages := [msgEx]
        cumulative_tokens :=
          { total := 5, input := 5, output := 0
            by_turn := [{ role := "user", tokens := 5, cumulative_total := 5
                          timestamp := 1 }] }
        message_count := 1
        turn_count := 1
        last_activity := 1 })]
    unsaved_messages := [("c1", [msgEx])]
    metrics_saved := [("c1", false)] }

/-- The empty manager state. -/
def mgr0 : ManagerState :=
  { active_chats := [], unsaved_messages := [], metrics_saved := [] }

/-! ## Claims C6, C9, C10, C3 -/

/-- C6: with an endpoint configured at limit 5 / window 60s, five
incrementing checks at `t = 0` are all admitted, a sixth at `t = 0` is
rejected with `retry_after = 61` (the code computes
`int(window - (now - oldest)) + 1`, i.e. about 60 seconds, derived from the
oldest entry), and a check at `t = 61` is admitted again because the five
`t = 0` entries have aged out of the window (the surviving entry list is just
the new `t = 61` entry). -/
theorem rate_limiter_sliding :
    (let st0 : RateLimiterState :=
      { requests := [], limits := [("ep", (5, 60)), ("default", (100, 60))] }
     let c1 := check_rate_limit st0 "u" "ep" true 0
     let c2 := check_rate_limit c1.2 "u" "ep" true 0
     let c3 := check_rate_limit c2.2 "u" "ep" true 0
     let c4 := check_rate_limit c3.2 "u" "ep" true 0
     let c5 := check_rate_limit c4.2 "u" "ep" true 0
     let c6 := check_rate_limit c5.2 "u" "ep" true 0
     let c7 := check_rate_limit c6.2 "u" "ep" true 61
     c1.1.1 = true ∧ c2.1.1 = true ∧ c3.1.1 = true ∧ c4.1.1 = true ∧
     c5.1.1 = true ∧
     c6.1.1 = false ∧ c6.1.2.retry_after = 61 ∧
     60 ≤ c6.1.2.retry_after ∧ c6.1.2.retry_after ≤ 61 ∧
     c7.1.1 = true ∧
     alookup ((alookup c7.2.requests "u").getD []) "ep" = some [(61, 1)]) := by
  decide

def msg2Ex : Message :=
  { role := "user", content := "second", tokens := 3, session_id := "s1"
    created_at := 5 }

/-- C10: an `add_message_to_cache` that runs while `save_chat_to_db` on the
same chat is suspended at its awaits appends a message that is neither in
the flush's snapshotted INSERT batch nor in the unsaved queue after the
flush completes — the turn is lost, and the returned count (2) over-reports
the batch actually written (1 message).  This refutes the claim on the code:
the phased flush clears the live queue wholesale instead of removing only
the snapshotted batch. -/
theorem append_during_flush_loses_message :
    save_chat_phase1 300 mgrEx "c1" true 10 = some [msgEx] ∧
    alookup (add_message_to_cache mgrEx "c1" "user" "second" 3 5).unsaved_messages
      "c1" = some [msgEx, msg2Ex] ∧
    msg2Ex ∉ [msgEx] ∧
    (save_chat_phase2 (add_message_to_cache mgrEx "c1" "user" "second" 3 5)
      "c1" 10).1 = 2 ∧
    alookup (save_chat_phase2 (add_message_to_cache mgrEx "c1" "user" "second" 3 5)
      "c1" 10).2.unsaved_messages "c1" = some [] ∧
    [msgEx].length = 1 := by
  decide

/-- C9: a session stored from an empty rows list has `total_chunks = 0`, and
on it all three read-side operations hit the unguarded
`retrieved_count / total_chunks` progress computation: in Python each raises
`ZeroDivisionError` instead of returning normally. -/
theorem zero_chunk_session_divides_by_zero :
    (let st := store (fun n : Nat => n) 2000 ([] : OffloadState Nat) "sid0" []
      "q" none 0
     get_retrieval_stats st "sid0" = StatsResult.zeroDivision ∧
     get_metadata st "sid0" = MetadataResult.zeroDivision ∧
     (get_chunks st "sid0" [] 1).1 = GetChunksResult.zeroDivision) := by
  decide

/-- C3 counterexample: with an empty cache, `add_message_to_cache` on an
uncached `chat_id` does not fail — it returns normally with the state
unchanged — whereas the claimed contract (`append_turn_spec`, written from
the spec) demands an `UnknownConversationError`. -/
theorem append_unknown_no_error_counterexample :
    alookup mgr0.active_chats "missing" = none ∧
    add_message_to_cache mgr0 "missing" "user" "hi" 5 0 = mgr0 ∧
    append_turn_spec mgr0 "missing" "user" "hi" 5 0 =
      Except.error ChatError.unknownConversation := by
  exact ⟨by decide, by decide, rfl⟩

/-- C3 (amended): for every `chat_id` not present in the cache,
`add_message_to_cache` is a silent no-op — it raises nothing, returns
normally, and leaves the cache state (messages, token counters, unsaved
queue) entirely unchanged. -/
theorem append_unknown_is_silent_noop (mgr : ManagerState)
    (chat_id role content : String) (tokens : Nat) (now : Int)
    (h : alookup mgr.active_chats chat_id = none) :
    add_message_to_cache mgr chat_id role content tokens now = mgr := by
  simp only [add_message_to_cache, h]

/-- Witness for the amended C3 at a concrete input. -/
theorem append_unknown_is_silent_noop_witness :
    add_message_to_cache mgr0 "missing" "user" "hi" 5 0 = mgr0 :=
  append_unknown_is_silent_noop mgr0 "missing" "user" "hi" 5 0 (by decide)

/-! ## Claim C5 -/

theorem adaptiveWindowGo_take (ws mwt mns : Nat) (m : ChkMsg)
    (rest acc : List ChkMsg) (total e t2 : Nat) (hm : estimate_tokens m = e)
    (h1 : acc.length < ws) (h2 : ¬ (mwt < total + e ∧ mns ≤ acc.length))
    (ht : total + e = t2) :
    adaptiveWindowGo ws mwt mns (m :: rest) acc total =
      adaptiveWindowGo ws mwt mns rest (m :: acc) t2 := by
  subst hm
  subst ht
  rw [adaptiveWindowGo, if_neg (Nat.not_le.mpr h1), if_neg h2]

theorem adaptiveWindowGo_stop (ws mwt mns : Nat) (m : ChkMsg)
    (rest acc : List ChkMsg) (total e : Nat) (hm : estimate_tokens m = e)
    (h1 : acc.length < ws) (h2 : mwt < total + e ∧ mns ≤ acc.length) :
    adaptiveWindowGo ws mwt mns (m :: rest) acc total = acc := by
  subst hm
  rw [adaptiveWindowGo, if_neg (Nat.not_le.mpr h1), if_pos h2]

/-- C5: with `min_window_size = 4`, `max_window_tokens = 100` and a base
window size of at least 5, ten messages each estimating to 30 tokens window
down to exactly the last four, in original oldest-first order (the minimum
floor overrides the token cap); and, in general, a message whose estimate
makes the accumulated total exactly equal `max_window_tokens` is included by
the walk, not excluded. -/
theorem adaptive_window_boundary :
    (∀ w : Nat, 5 ≤ w → ∀ m0 m1 m2 m3 m4 m5 m6 m7 m8 m9 : ChkMsg,
      estimate_tokens m0 = 30 → estimate_tokens m1 = 30 →
      estimate_tokens m2 = 30 → estimate_tokens m3 = 30 →
      estimate_tokens m4 = 30 → estimate_tokens m5 = 30 →
      estimate_tokens m6 = 30 → estimate_tokens m7 = 30 →
      estimate_tokens m8 = 30 → estimate_tokens m9 = 30 →
      adaptive_window w 100 4 [m0, m1, m2, m3, m4, m5, m6, m7, m8, m9] =
        [m6, m7, m8, m9]) ∧
    (∀ (ws mwt mns : Nat) (m : ChkMsg) (rest acc : List ChkMsg) (total : Nat),
      acc.length < ws → total + estimate_tokens m = mwt →
      adaptiveWindowGo ws mwt mns (m :: rest) acc total =
        adaptiveWindowGo ws mwt mns rest (m :: acc) mwt) := by
  constructor
  · intro w hw m0 m1 m2 m3 m4 m5 m6 m7 m8 m9 h0 h1 h2 h3 h4 h5 h6 h7 h8 h9
    have hrev : ([m0, m1, m2, m3, m4, m5, m6, m7, m8, m9] : List ChkMsg).reverse =
        [m9, m8, m7, m6, m5, m4, m3, m2, m1, m0] := by simp
    rw [adaptive_window, hrev]
    rw [adaptiveWindowGo_take w 100 4 m9 _ [] 0 30 30 h9
      (by simp only [List.length_nil]; omega) (by simp) (by omega)]
    rw [adaptiveWindowGo_take w 100 4 m8 _ [m9] 30 30 60 h8
      (by simp only [List.length_cons, List.length_nil]; omega) (by simp) (by omega)]
    rw [adaptiveWindowGo_take w 100 4 m7 _ [m8, m9] 60 30 90 h7
      (by simp only [List.length_cons, List.length_nil]; omega) (by simp) (by omega)]
    rw [adaptiveWindowGo_take w 100 4 m6 _ [m7, m8, m9] 90 30 120 h6
      (by simp only [List.length_cons, List.length_nil]; omega)
      (by simp only [List.length_cons, List.length_nil]; omega) (by omega)]
    rw [adaptiveWindowGo_stop w 100 4 m5 _ [m6, m7, m8, m9] 120 30 h5
      (by simp only [List.length_cons, List.length_nil]; omega)
      (by simp only [List.length_cons, List.length_nil]; omega)]
  · intro ws mwt mns m rest acc total h1 h2
    rw [adaptiveWindowGo_take ws mwt mns m rest acc total (estimate_tokens m)
      mwt rfl h1 (by omega) h2]

def chkMsgEx : ChkMsg := { content := String.mk (List.replicate 120 'a') }

/-- Witness for C5 at concrete messages of 120 characters each. -/
theorem adaptive_window_boundary_witness :
    adaptive_window 5 100 4 [chkMsgEx, chkMsgEx, chkMsgEx, chkMsgEx, chkMsgEx,
      chkMsgEx, chkMsgEx, chkMsgEx, chkMsgEx, chkMsgEx] =
      [chkMsgEx, chkMsgEx, chkMsgEx, chkMsgEx] :=
  adaptive_window_boundary.1 5 (by decide) chkMsgEx chkMsgEx chkMsgEx chkMsgEx
    chkMsgEx chkMsgEx chkMsgEx chkMsgEx chkMsgEx chkMsgEx (by decide) (by decide)
    (by decide) (by decide) (by decide) (by decide) (by decide) (by decide)
    (by decide) (by decide)

/-! ## Claim C2 -/

theorem applyCalls_nil (mgr : ManagerState) (chat_id : String) :
    applyCalls mgr chat_id [] = mgr := rfl

theorem applyCalls_cons (mgr : ManagerState) (chat_id : String)
    (c : AppendCall) (rest : List AppendCall) :
    applyCalls mgr chat_id (c :: rest) =
      applyCalls (add_message_to_cache mgr chat_id c.role c.content c.tokens c.now)
        chat_id rest := rfl

theorem applyCalls_append (mgr : ManagerState) (chat_id : String)
    (pre post : List AppendCall) :
    applyCalls mgr chat_id (pre ++ post) =
      applyCalls (applyCalls mgr chat_id pre) chat_id post :=
  List.foldl_append _ _ _ _

theorem add_message_cached (mgr : ManagerState) (chat_id role content : String)
    (tokens : Nat) (now : Int) (cd : ChatData)
    (h : alookup mgr.active_chats chat_id = some cd) :
    alookup (add_message_to_cache mgr chat_id role content tokens now).active_chats
      chat_id = some (appendedChatData cd role content tokens now) := by
  simp only [add_message_to_cache, h]
  exact alookup_aset_self _ _ _

/-- The running token ledger after a call sequence, relative to the starting
chat record. -/
theorem applyCalls_ledger (chat_id : String) (calls : List AppendCall) :
    ∀ (mgr : ManagerState) (cd : ChatData),
      alookup mgr.active_chats chat_id = some cd →
      ∃ cd1, alookup (applyCalls mgr chat_id calls).active_chats chat_id = some cd1 ∧
        cd1.cumulative_tokens.total = cd.cumulative_tokens.total + sumTokens calls ∧
        cd1.cumulative_tokens.input =
          cd.cumulative_tokens.input + sumRoleTokens "user" calls ∧
        cd1.cumulative_tokens.output =
          cd.cumulative_tokens.output + sumRoleTokens "assistant" calls := by
  induction calls with
  | nil =>
    intro mgr cd h
    exact ⟨cd, h, by simp [sumTokens], by simp [sumRoleTokens], by simp [sumRoleTokens]⟩
  | cons c rest ih =>
    intro mgr cd h
    rw [applyCalls_cons]
    obtain ⟨cd1, h1, ht, hi, ho⟩ := ih
      (add_message_to_cache mgr chat_id c.role c.content c.tokens c.now)
      (appendedChatData cd c.role c.content c.tokens c.now)
      (add_message_cached mgr chat_id c.role c.content c.tokens c.now cd h)
    refine ⟨cd1, h1, ?_, ?_, ?_⟩
    · rw [ht]
      simp only [appendedChatData, sumTokens, List.map_cons, List.sum_cons]
      omega
    · rw [hi]
      by_cases hr : c.role = "user"
      · simp [appendedChatData, sumRoleTokens, List.filter_cons, hr]
        try omega
      · simp [appendedChatData, sumRoleTokens, List.filter_cons, hr]
        try omega
    · rw [ho]
      by_cases hr : c.role = "assistant"
      · simp [appendedChatData, sumRoleTokens, List.filter_cons, hr]
        try omega
      · simp [appendedChatData, sumRoleTokens, List.filter_cons, hr]
        try omega

theorem sumRole_partition (calls : List AppendCall)
    (h : ∀ c ∈ calls, c.role = "user" ∨ c.role = "assistant") :
    sumRoleTokens "user" calls + sumRoleTokens "assistant" calls =
      sumTokens calls := by
  induction calls with
  | nil => simp [sumRoleTokens, sumTokens]
  | cons c rest ih =>
    have hrest := ih (fun c1 hc1 => h c1 (List.mem_cons_of_mem _ hc1))
    rcases h c (List.mem_cons_self c rest) with hu | ha
    · have hna : ¬ (c.role = "assistant") := by rw [hu]; decide
      simp [sumRoleTokens, sumTokens, List.filter_cons, hu, hna] at hrest ⊢
      omega
    · have hnu : ¬ (c.role = "user") := by rw [ha]; decide
      simp [sumRoleTokens, sumTokens, List.filter_cons, ha, hnu] at hrest ⊢
      omega

/-- C2: starting from a freshly created cached conversation, after any
sequence of `add_message_to_cache` calls whose roles are `user` or
`assistant`, the cumulative total is the sum of the `tokens` arguments,
the input/output split is exactly the user/assistant split (so
`input + output = total` at every intermediate point), and all three
counters are monotonically non-decreasing along the sequence (any prefix's
counters are bounded by the full sequence's). -/
theorem token_conservation (mgr : ManagerState)
    (chat_id session_id user_id : String) (t0 : Int)
    (pre post : List AppendCall)
    (hroles : ∀ c ∈ pre ++ post, c.role = "user" ∨ c.role = "assistant") :
    ∃ cdp cdf,
      alookup (applyCalls (cache_new_chat mgr chat_id session_id user_id t0)
        chat_id pre).active_chats chat_id = some cdp ∧
      alookup (applyCalls (cache_new_chat mgr chat_id session_id user_id t0)
        chat_id (pre ++ post)).active_chats chat_id = some cdf ∧
      cdp.cumulative_tokens.total = sumTokens pre ∧
      cdp.cumulative_tokens.input = sumRoleTokens "user" pre ∧
      cdp.cumulative_tokens.output = sumRoleTokens "assistant" pre ∧
      cdp.cumulative_tokens.input + cdp.cumulative_tokens.output =
        cdp.cumulative_tokens.total ∧
      cdf.cumulative_tokens.total = sumTokens (pre ++ post) ∧
      cdp.cumulative_tokens.total ≤ cdf.cumulative_tokens.total ∧
      cdp.cumulative_tokens.input ≤ cdf.cumulative_tokens.input ∧
      cdp.cumulative_tokens.output ≤ cdf.cumulative_tokens.output := by
  have h0 : alookup (cache_new_chat mgr chat_id session_id user_id t0).active_chats
      chat_id = some (initChatData session_id user_id t0) := by
    simp only [cache_new_chat]
    exact alookup_aset_self _ _ _
  obtain ⟨cdp, hp, hpt, hpi, hpo⟩ := applyCalls_ledger chat_id pre _ _ h0
  obtain ⟨cdf, hf, hft, hfi, hfo⟩ := applyCalls_ledger chat_id post _ _ hp
  rw [← applyCalls_append] at hf
  have hit : (initChatData session_id user_id t0).cumulative_tokens.total = 0 := rfl
  have hii : (initChatData session_id user_id t0).cumulative_tokens.input = 0 := rfl
  have hio : (initChatData session_id user_id t0).cumulative_tokens.output = 0 := rfl
  have hprepost : sumTokens (pre ++ post) = sumTokens pre + sumTokens post := by
    simp [sumTokens]
  have hpre : ∀ c ∈ pre, c.role = "user" ∨ c.role = "assistant" :=
    fun c hc => hroles c (List.mem_append.mpr (Or.inl hc))
  have hpart := sumRole_partition pre hpre
  refine ⟨cdp, cdf, hp, hf, ?_, ?_, ?_, ?_, ?_, ?_, ?_, ?_⟩ <;> omega

def callU : AppendCall := { role := "user", content := "a", tokens := 3, now := 1 }

def callA : AppendCall := { role := "assistant", content := "b", tokens := 4, now := 2 }

/-- Witness for C2 at a concrete two-call sequence. -/
theorem token_conservation_witness :
    ∃ cdp cdf,
      alookup (applyCalls (cache_new_chat mgr0 "c1" "s1" "u1" 0) "c1"
        [callU]).active_chats "c1" = some cdp ∧
      alookup (applyCalls (cache_new_chat mgr0 "c1" "s1" "u1" 0) "c1"
        ([callU] ++ [callA])).active_chats "c1" = some cdf ∧
      cdp.cumulative_tokens.total = sumTokens [callU] ∧
      cdp.cumulative_tokens.input = sumRoleTokens "user" [callU] ∧
      cdp.cumulative_tokens.output = sumRoleTokens "assistant" [callU] ∧
      cdp.cumulative_tokens.input + cdp.cumulative_tokens.output =
        cdp.cumulative_tokens.total ∧
      cdf.cumulative_tokens.total = sumTokens ([callU] ++ [callA]) ∧
      cdp.cumulative_tokens.total ≤ cdf.cumulative_tokens.total ∧
      cdp.cumulative_tokens.input ≤ cdf.cumulative_tokens.input ∧
      cdp.cumulative_tokens.output ≤ cdf.cumulative_tokens.output :=
  token_conservation mgr0 "c1" "s1" "u1" 0 [callU] [callA] (by decide)

/-! ## Claim C1 -/

/-- C1: if `save_chat_to_db` raises (a `run_query` failure propagates), the
whole cache state — in particular the unsaved-message queue — is unchanged,
so a retry sees exactly the same pending turns; if it returns a positive
count, the INSERT batch contained exactly the pre-flush pending messages and
the unsaved queue is now empty; and two `force = false` calls within the
auto-save interval perform at most one actual write (at least one of the two
calls issues no writes). -/
theorem flush_atomicity (asi : Int) (mgr : ManagerState) (chat_id : String) :
    (∀ (force : Bool) (now : Int) (io uo : Bool),
      (save_chat_to_db asi mgr chat_id force now io uo).1 = .raised →
      (save_chat_to_db asi mgr chat_id force now io uo).2.1 = mgr) ∧
    (∀ (force : Bool) (now : Int) (io uo : Bool) (n : Nat),
      (save_chat_to_db asi mgr chat_id force now io uo).1 = .count n →
      0 < n →
      n = ((alookup mgr.unsaved_messages chat_id).getD []).length ∧
      DbWrite.insertMessages chat_id
        ((alookup mgr.unsaved_messages chat_id).getD []) ∈
        (save_chat_to_db asi mgr chat_id force now io uo).2.2 ∧
      alookup (save_chat_to_db asi mgr chat_id force now io
        uo).2.1.unsaved_messages chat_id = some []) ∧
    (∀ now1 now2 : Int, now2 < now1 + asi →
      (save_chat_to_db asi mgr chat_id false now1 true true).2.2 = [] ∨
      (save_chat_to_db asi (save_chat_to_db asi mgr chat_id false now1 true
        true).2.1 chat_id false now2 true true).2.2 = []) := by
  refine ⟨?_, ?_, ?_⟩
  · intro force now io uo h
    cases hl : alookup mgr.active_chats chat_id with
    | none =>
      simp only [save_chat_to_db, hl] at h
      exact absurd h (by simp)
    | some cd =>
      simp only [save_chat_to_db, hl] at h ⊢
      by_cases h1 : ((alookup mgr.unsaved_messages chat_id).getD []).isEmpty
      · rw [if_pos h1] at h
        exact absurd h (by simp)
      · rw [if_neg h1] at h ⊢
        by_cases h2 : ¬ force = true ∧ now - cd.last_save < asi
        · rw [if_pos h2] at h
          exact absurd h (by simp)
        · rw [if_neg h2] at h ⊢
          by_cases h3 : io = true
          · rw [if_neg (by simp [h3])] at h ⊢
            by_cases h4 : uo = true
            · rw [if_neg (by simp [h4])] at h
              exact absurd h (by simp)
            · rw [if_pos (by simp [h4])] at h ⊢
          · rw [if_pos (by simp [h3])] at h ⊢
  · intro force now io uo n h hn
    cases hl : alookup mgr.active_chats chat_id with
    | none =>
      simp only [save_chat_to_db, hl, FlushResult.count.injEq] at h
      omega
    | some cd =>
      simp only [save_chat_to_db, hl] at h ⊢
      by_cases h1 : ((alookup mgr.unsaved_messages chat_id).getD []).isEmpty
      · rw [if_pos h1] at h
        simp only [FlushResult.count.injEq] at h
        omega
      · rw [if_neg h1] at h ⊢
        by_cases h2 : ¬ force = true ∧ now - cd.last_save < asi
        · rw [if_pos h2] at h
          simp only [FlushResult.count.injEq] at h
          omega
        · rw [if_neg h2] at h ⊢
          by_cases h3 : io = true
          · rw [if_neg (by simp [h3])] at h ⊢
            by_cases h4 : uo = true
            · rw [if_neg (by simp [h4])] at h ⊢
              simp only [FlushResult.count.injEq] at h
              exact ⟨h.symm, List.mem_cons_self _ _, alookup_aset_self _ _ _⟩
            · rw [if_pos (by simp [h4])] at h
              exact absurd h (by simp)
          · rw [if_pos (by simp [h3])] at h
            exact absurd h (by simp)
  · intro now1 now2 _
    cases hl : alookup mgr.active_chats chat_id with
    | none =>
      left
      simp only [save_chat_to_db, hl]
    | some cd =>
      by_cases h1 : ((alookup mgr.unsaved_messages chat_id).getD []).isEmpty
      · left
        simp only [save_chat_to_db, hl, if_pos h1]
      · by_cases h2 : now1 - cd.last_save < asi
        · left
          simp only [save_chat_to_db, hl, if_neg h1]
          rw [if_pos]
          exact ⟨by simp, h2⟩
        · right
          have hsv : save_chat_to_db asi mgr chat_id false now1 true true =
              (.count ((alookup mgr.unsaved_messages chat_id).getD []).length,
               { mgr with
                 active_chats := aset mgr.active_chats chat_id
                   { cd with last_save := now1 }
                 unsaved_messages := aset mgr.unsaved_messages chat_id [] },
               [DbWrite.insertMessages chat_id
                  ((alookup mgr.unsaved_messages chat_id).getD []),
                DbWrite.updateChatTokens chat_id
                  cd.cumulative_tokens.total]) := by
            simp only [save_chat_to_db, hl, if_neg h1]
            rw [if_neg (by simp [h2])]
            simp
          rw [hsv]
          simp [save_chat_to_db, alookup_aset_self]

/-- Witness for C1: a concrete successful forced flush of one pending
message empties the unsaved queue and batches exactly that message. -/
theorem flush_atomicity_witness :
    1 = ((alookup mgrEx.unsaved_messages "c1").getD []).length ∧
    DbWrite.insertMessages "c1" ((alookup mgrEx.unsaved_messages "c1").getD []) ∈
      (save_chat_to_db 300 mgrEx "c1" true 100 true true).2.2 ∧
    alookup (save_chat_to_db 300 mgrEx "c1" true 100 true
      true).2.1.unsaved_messages "c1" = some [] :=
  (flush_atomicity 300 mgrEx "c1").2.1 true 100 true true 1 (by decide) (by decide)

/-! ## Claim C7 -/

/-- C7: on a cached conversation whose metrics are not yet finalized, two
`end_session` calls (all external writes succeeding) produce exactly one
session-summary write to the persistence contract; the second call performs
none because of the `metrics_saved` guard. -/
theorem idempotent_session_end (asi : Int) (mgr : ManagerState)
    (chat_id : String) (now1 now2 : Int) (cd : ChatData)
    (hcached : alookup mgr.active_chats chat_id = some cd)
    (hnotsaved : (alookup mgr.metrics_saved chat_id).getD false = false) :
    countMetricsWrites ((end_session asi mgr chat_id now1 true true true).2.2 ++
      (end_session asi (end_session asi mgr chat_id now1 true true true).2.1
        chat_id now2 true true true).2.2) = 1 ∧
    countMetricsWrites (end_session asi (end_session asi mgr chat_id now1 true
      true true).2.1 chat_id now2 true true true).2.2 = 0 := by
  by_cases h1 : ((alookup mgr.unsaved_messages chat_id).getD []).isEmpty
  · have hsv : save_chat_to_db asi mgr chat_id true now1 true true =
        (.count 0, mgr, []) := by
      simp only [save_chat_to_db, hcached, if_pos h1]
    have hmet : save_session_metrics mgr chat_id true =
        ({ mgr with metrics_saved := aset mgr.metrics_saved chat_id true },
         [DbWrite.insertMetrics chat_id cd.session_id]) := by
      simp only [save_session_metrics, hcached, hnotsaved]
      simp
    have he1 : end_session asi mgr chat_id now1 true true true =
        (false, { mgr with metrics_saved := aset mgr.metrics_saved chat_id true },
         [DbWrite.insertMetrics chat_id cd.session_id]) := by
      simp only [end_session, hcached, hsv, hmet]
      simp
    rw [he1]
    have hsv2 : save_chat_to_db asi
        { mgr with metrics_saved := aset mgr.metrics_saved chat_id true }
        chat_id true now2 true true =
        (.count 0, { mgr with metrics_saved := aset mgr.metrics_saved chat_id true },
         []) := by
      simp only [save_chat_to_db, hcached, if_pos h1]
    have hmet2 : save_session_metrics
        { mgr with metrics_saved := aset mgr.metrics_saved chat_id true }
        chat_id true =
        ({ mgr with metrics_saved := aset mgr.metrics_saved chat_id true }, []) := by
      simp only [save_session_metrics, hcached, alookup_aset_self]
      simp
    have he2 : end_session asi
        { mgr with metrics_saved := aset mgr.metrics_saved chat_id true }
        chat_id now2 true true true =
        (false, { mgr with metrics_saved := aset mgr.metrics_saved chat_id true },
         []) := by
      simp only [end_session, hcached, hsv2, hmet2]
      simp
    rw [he2]
    simp [countMetricsWrites, isMetricsWrite]
  · have hsv : save_chat_to_db asi mgr chat_id true now1 true true =
        (.count ((alookup mgr.unsaved_messages chat_id).getD []).length,
         { mgr with
           active_chats := aset mgr.active_chats chat_id
             { cd with last_save := now1 }
           unsaved_messages := aset mgr.unsaved_messages chat_id [] },
         [DbWrite.insertMessages chat_id
            ((alookup mgr.unsaved_messages chat_id).getD []),
          DbWrite.updateChatTokens chat_id cd.cumulative_tokens.total]) := by
      simp only [save_chat_to_db, hcached, if_neg h1]
      rw [if_neg (by simp)]
      simp
    set mgr1 : ManagerState :=
      { mgr with
        active_chats := aset mgr.active_chats chat_id { cd with last_save := now1 }
        unsaved_messages := aset mgr.unsaved_messages chat_id [] } with hmgr1
    have hl1 : alookup mgr1.active_chats chat_id =
        some { cd with last_save := now1 } := alookup_aset_self _ _ _
    have hmet : save_session_metrics mgr1 chat_id true =
        ({ mgr1 with metrics_saved := aset mgr1.metrics_saved chat_id true },
         [DbWrite.insertMetrics chat_id cd.session_id]) := by
      simp only [save_session_metrics, hl1]
      rw [hmgr1]
      simp only [hnotsaved]
      simp
    have he1 : end_session asi mgr chat_id now1 true true true =
        (false, { mgr1 with metrics_saved := aset mgr1.metrics_saved chat_id true },
         [DbWrite.insertMessages chat_id
            ((alookup mgr.unsaved_messages chat_id).getD []),
          DbWrite.updateChatTokens chat_id cd.cumulative_tokens.total,
          DbWrite.insertMetrics chat_id cd.session_id]) := by
      simp only [end_session, hcached, hsv, hmet]
      simp
    rw [he1]
    set mgr2 : ManagerState :=
      { mgr1 with metrics_saved := aset mgr1.metrics_saved chat_id true } with hmgr2
    have hl2 : alookup mgr2.active_chats chat_id =
        some { cd with last_save := now1 } := hl1
    have hu2 : alookup mgr2.unsaved_messages chat_id = some [] :=
      alookup_aset_self _ _ _
    have hsv2 : save_chat_to_db asi mgr2 chat_id true now2 true true =
        (.count 0, mgr2, []) := by
      simp only [save_chat_to_db, hl2, hu2]
      simp
    have hmet2 : save_session_metrics mgr2 chat_id true = (mgr2, []) := by
      simp only [save_session_metrics, hl2]
      have : (alookup mgr2.metrics_saved chat_id).getD false = true := by
        rw [hmgr2]
        simp only [alookup_aset_self, Option.getD_some]
      simp [this]
    have he2 : end_session asi mgr2 chat_id now2 true true true =
        (false, mgr2, []) := by
      simp only [end_session, hl2, hsv2, hmet2]
      simp
    rw [he2]
    simp [countMetricsWrites, isMetricsWrite]

/-- Witness for C7 at the concrete one-message conversation. -/
theorem idempotent_session_end_witness :
    countMetricsWrites ((end_session 300 mgrEx "c1" 100 true true true).2.2 ++
      (end_session 300 (end_session 300 mgrEx "c1" 100 true true true).2.1
        "c1" 200 true true true).2.2) = 1 ∧
    countMetricsWrites (end_session 300 (end_session 300 mgrEx "c1" 100 true
      true true).2.1 "c1" 200 true true true).2.2 = 0 :=
  idempotent_session_end 300 mgrEx "c1" 100 200
    { cdEx with
      messages := [msgEx]
      cumulative_tokens :=
        { total := 5, input := 5, output := 0
          by_turn := [{ role := "user", tokens := 5, cumulative_total := 5
                        timestamp := 1 }] }
      message_count := 1
      turn_count := 1
      last_activity := 1 }
    (by decide) (by decide)

/-! ## Claim C8 -/

theorem markRetrieved_length (now : Int) (tr : List ChunkTracking) :
    ∀ j : Nat, (markRetrieved now tr j).length = tr.length := by
  induction tr with
  | nil => intro j; cases j <;> rfl
  | cons t ts ih =>
    intro j
    cases j with
    | zero => rfl
    | succ j1 => simp [markRetrieved, ih j1]

theorem markRetrieved_count (now : Int) (tr : List ChunkTracking) :
    ∀ j k : Nat,
      ((markRetrieved now tr j).getD k defaultTracking).retrieval_count =
        (tr.getD k defaultTracking).retrieval_count +
          (if j = k ∧ j < tr.length then 1 else 0) := by
  induction tr with
  | nil =>
    intro j k
    cases j <;> simp [markRetrieved]
  | cons t ts ih =>
    intro j k
    cases j with
    | zero =>
      cases k with
      | zero => simp [markRetrieved]
      | succ k1 => simp [markRetrieved]
    | succ j1 =>
      cases k with
      | zero => simp [markRetrieved]
      | succ k1 =>
        simp only [markRetrieved, List.getD_cons_succ, List.length_cons, ih j1 k1]
        by_cases hjk : j1 = k1 ∧ j1 < ts.length
        · rw [if_pos hjk, if_pos ⟨by omega, by omega⟩]
        · rw [if_neg hjk, if_neg (by omega)]

theorem foldl_markRetrieved_length (now : Int) (idxs : List Int) :
    ∀ tr : List ChunkTracking,
      (idxs.foldl (fun t i => markRetrieved now t i.toNat) tr).length =
        tr.length := by
  induction idxs with
  | nil => intro tr; rfl
  | cons i rest ih =>
    intro tr
    simp only [List.foldl_cons, ih, markRetrieved_length]

theorem foldl_markRetrieved_count (now : Int) (idxs : List Int) :
    ∀ (tr : List ChunkTracking) (j : Nat), j < tr.length →
      (∀ i ∈ idxs, i.toNat < tr.length) →
      ((idxs.foldl (fun t i => markRetrieved now t i.toNat) tr).getD j
        defaultTracking).retrieval_count =
        (tr.getD j defaultTracking).retrieval_count +
          (idxs.map Int.toNat).count j := by
  induction idxs with
  | nil => intro tr j hj _; simp
  | cons i rest ih =>
    intro tr j hj hmem
    simp only [List.foldl_cons, List.map_cons]
    rw [ih (markRetrieved now tr i.toNat) j
      (by rw [markRetrieved_length]; exact hj)
      (fun i1 hi1 => by
        rw [markRetrieved_length]
        exact hmem i1 (List.mem_cons_of_mem _ hi1))]
    rw [markRetrieved_count]
    have hilen : i.toNat < tr.length := hmem i (List.mem_cons_self i rest)
    by_cases hij : i.toNat = j
    · rw [if_pos ⟨hij, hilen⟩, List.count_cons]
      simp [hij]
      omega
    · rw [if_neg (by omega), List.count_cons]
      simp [hij]

theorem count_toNat_of_nonneg (j : Nat) (idxs : List Int)
    (h : ∀ i ∈ idxs, 0 ≤ i) :
    (idxs.map Int.toNat).count j = idxs.count (j : Int) := by
  induction idxs with
  | nil => simp
  | cons i rest ih =>
    have hrest := ih (fun i1 hi1 => h i1 (List.mem_cons_of_mem _ hi1))
    have hi : (0 : Int) ≤ i := h i (List.mem_cons_self i rest)
    simp only [List.map_cons, List.count_cons, hrest]
    by_cases hij : i.toNat = j
    · have : i = (j : Int) := by omega
      simp [hij, this]
    · have : ¬ (i = (j : Int)) := by omega
      simp [hij, this]

/-- C8: `get_chunks` returns a not-found error result for an unknown session
and an invalid-index error result listing exactly the offending indices when
any requested index is out of range, leaving the state (ledger, history)
untouched in both error cases; on success the returned data is the in-order
concatenation of the requested chunks' rows, the retrieval history gains the
one new event, and each chunk's `retrieval_count` grows by the number of
occurrences of its index in the request. -/
theorem get_chunks_contract {α : Type} (st : OffloadState α) (sid : String)
    (idxs : List Int) (now : Int) :
    (alookup st sid = none →
      get_chunks st sid idxs now = (.notFound sid, st)) ∧
    (∀ s : OffloadSession α, alookup st sid = some s →
      idxs.filter (fun i => i < 0 ∨ (s.total_chunks : Int) ≤ i) ≠ [] →
      get_chunks st sid idxs now =
        (.invalidIndices
          (idxs.filter (fun i => i < 0 ∨ (s.total_chunks : Int) ≤ i))
          s.total_chunks, st)) ∧
    (∀ s : OffloadSession α, alookup st sid = some s →
      (∀ i ∈ idxs, 0 ≤ i ∧ i < (s.total_chunks : Int)) →
      0 < s.total_chunks → s.chunk_tracking.length = s.total_chunks →
      ∃ (s1 : OffloadSession α) (data : List α) (remaining : List Nat)
        (rc : Nat) (p : Rat),
        get_chunks st sid idxs now =
          (.success data remaining rc s.total_chunks p, aset st sid s1) ∧
        data = (idxs.map (fun i => s.chunks.getD i.toNat [])).flatten ∧
        s1.retrieval_history = s.retrieval_history ++
          [{ timestamp := now, chunk_indices := idxs
             rows_retrieved := data.length }] ∧
        (∀ j : Nat, j < s.total_chunks →
          (s1.chunk_tracking.getD j defaultTracking).retrieval_count =
            (s.chunk_tracking.getD j defaultTracking).retrieval_count +
              idxs.count (j : Int))) := by
  refine ⟨?_, ?_, ?_⟩
  · intro h
    simp only [get_chunks, h]
  · intro s hs hne
    simp only [get_chunks, hs]
    rw [if_pos (by simpa [List.isEmpty_iff] using hne)]
  · intro s hs hvalid hpos hlen
    simp only [get_chunks, hs]
    rw [if_neg (by
      simp only [List.isEmpty_iff, Decidable.not_not]
      exact List.filter_eq_nil_iff.mpr (fun i hi => by
        obtain ⟨h0, hlt⟩ := hvalid i hi
        simp only [decide_eq_true_eq]
        omega))]
    rw [if_neg (by omega)]
    refine ⟨_, _, _, _, _, rfl, rfl, rfl, ?_⟩
    intro j hj
    have hjlen : j < s.chunk_tracking.length := by rw [hlen]; exact hj
    have hmem : ∀ i ∈ idxs, i.toNat < s.chunk_tracking.length := by
      intro i hi
      obtain ⟨h0, hlt⟩ := hvalid i hi
      rw [hlen]
      omega
    show ((idxs.foldl (fun tr i => markRetrieved now tr i.toNat)
        s.chunk_tracking).getD j defaultTracking).retrieval_count =
      (s.chunk_tracking.getD j defaultTracking).retrieval_count +
        idxs.count (j : Int)
    rw [foldl_markRetrieved_count now idxs s.chunk_tracking j hjlen hmem,
      count_toNat_of_nonneg j idxs (fun i hi => (hvalid i hi).1)]

/-- The offload session produced by storing rows of sizes `[3, 4, 5, 12]`
with `chunk_context_size = 10` under session id `s`. -/
def sessEx : OffloadSession Nat :=
  { chunks := [[3, 4], [5], [12]]
    total_chunks := 3
    total_rows := 4
    query := "q"
    year_filter := none
    created_at := 0
    chunk_tracking :=
      [{ retrieved := false, retrieval_count := 0, first_retrieval := none
         last_retrieval := none, row_count := 2 },
       { retrieved := false, retrieval_count := 0, first_retrieval := none
         last_retrieval := none, row_count := 1 },
       { retrieved := false, retrieval_count := 0, first_retrieval := none
         last_retrieval := none, row_count := 1 }]
    retrieval_history := [] }

def ostEx : OffloadState Nat :=
  store (fun n : Nat => n) 10 ([] : OffloadState Nat) "s" [3, 4, 5, 12] "q" none 0

/-- Witness for C8: requesting chunks `[0, 2, 0]` of the concrete session
succeeds, returns their rows in order, and counts chunk 0 twice. -/
theorem get_chunks_contract_witness :
    ∃ (s1 : OffloadSession Nat) (data : List Nat) (remaining : List Nat)
      (rc : Nat) (p : Rat),
      get_chunks ostEx "s" [0, 2, 0] 7 =
        (.success data remaining rc sessEx.total_chunks p, aset ostEx "s" s1) ∧
      data = (([0, 2, 0] : List Int).map
        (fun i => sessEx.chunks.getD i.toNat [])).flatten ∧
      s1.retrieval_history = sessEx.retrieval_history ++
        [{ timestamp := 7, chunk_indices := [0, 2, 0]
           rows_retrieved := data.length }] ∧
      (∀ j : Nat, j < sessEx.total_chunks →
        (s1.chunk_tracking.getD j defaultTracking).retrieval_count =
          (sessEx.chunk_tracking.getD j defaultTracking).retrieval_count +
            ([0, 2, 0] : List Int).count (j : Int)) :=
  (get_chunks_contract ostEx "s" [0, 2, 0] 7).2.2 sessEx (by decide)
    (by decide) (by decide) (by decide)
